import Mathlib

/-!
Verification of the classic-snake-online repository.

This file gives a shallow embedding of the repository's simulation core and
networking layers, translated from the TypeScript sources:

* `packages/shared/src/snake.ts` — the immutable `SnakeGame` ADT
  (grid, snake body, food, direction queue, tick transition);
* the generic `MultiplayerClient` / `MultiplayerServer` prediction and
  reconciliation classes;
* `packages/shared/src/serverLogic.ts` — the lobby / session state machine;
* `packages/shared/src/time_sync.ts` and the server game module's
  time-sync response handler.

Randomness (`Math.random` inside `generateFood`) and the wall clock
(`Date.now`) are modelled as explicit oracle parameters: a call that the
source makes to the environment becomes an argument of the embedded
function, so a run of the simulation is a pure function of the initial
state, the call sequence, and the oracle values observed.
-/

namespace Snake

/-- `Position` from snake.ts: integer pair on the grid. -/
structure Pos where
  x : Int
  y : Int
deriving DecidableEq, Repr

/-- `Direction` from snake.ts. -/
inductive Direction where
  | UP
  | DOWN
  | LEFT
  | RIGHT
deriving DecidableEq, Repr

/-- `GameStatus` from snake.ts. -/
inductive GameStatus where
  | NOT_STARTED
  | PLAYING
  | GAME_OVER
deriving DecidableEq, Repr

/-- The public `GameState` record returned by `SnakeGame.serialize`. -/
structure GameState where
  snake : List Pos
  food : Pos
  direction : Direction
  status : GameStatus
  score : Int
  gridWidth : Int
  gridHeight : Int
  startTime : Int
  elapsedTime : Int
  tickCount : Int
deriving DecidableEq, Repr

/-- The internal state of the `SnakeGame` class: the serialized fields plus
the two private direction-queue slots (`InternalState` in snake.ts). -/
structure SnakeGame where
  snake : List Pos
  food : Pos
  direction : Direction
  queuedDir1 : Option Direction
  queuedDir2 : Option Direction
  status : GameStatus
  score : Int
  gridWidth : Int
  gridHeight : Int
  startTime : Int
  elapsedTime : Int
  tickCount : Int
deriving DecidableEq, Repr

/-- `SnakeGame.serialize`: project the public `GameState` out of the
internal state (drops the queue slots). -/
def SnakeGame.serialize (g : SnakeGame) : GameState :=
  { snake := g.snake
    food := g.food
    direction := g.direction
    status := g.status
    score := g.score
    gridWidth := g.gridWidth
    gridHeight := g.gridHeight
    startTime := g.startTime
    elapsedTime := g.elapsedTime
    tickCount := g.tickCount }

/-- `SnakeGame.isOpposite` from snake.ts. -/
def isOpposite (dir1 dir2 : Direction) : Bool :=
  (dir1 = Direction.UP ∧ dir2 = Direction.DOWN) ∨
  (dir1 = Direction.DOWN ∧ dir2 = Direction.UP) ∨
  (dir1 = Direction.LEFT ∧ dir2 = Direction.RIGHT) ∨
  (dir1 = Direction.RIGHT ∧ dir2 = Direction.LEFT)

/-- `SnakeGame.getNextPosition` from snake.ts. -/
def getNextPosition (pos : Pos) (dir : Direction) : Pos :=
  match dir with
  | Direction.UP => ⟨pos.x, pos.y - 1⟩
  | Direction.DOWN => ⟨pos.x, pos.y + 1⟩
  | Direction.LEFT => ⟨pos.x - 1, pos.y⟩
  | Direction.RIGHT => ⟨pos.x + 1, pos.y⟩

/-- `SnakeGame.canQueueDirection` from snake.ts, branch for branch:
not PLAYING → false; both slots full (slot 2 occupied) → false; one slot
occupied → compare against slot 1; no slot occupied → compare against the
current direction. -/
def SnakeGame.canQueueDirection (g : SnakeGame) (newDirection : Direction) : Bool :=
  if g.status ≠ GameStatus.PLAYING then
    false
  else
    match g.queuedDir2 with
    | some _ => false
    | none =>
      match g.queuedDir1 with
      | some q1 => ¬(isOpposite newDirection q1 ∨ newDirection = q1)
      | none => ¬(isOpposite newDirection g.direction ∨ newDirection = g.direction)

/-- `SnakeGame.queueDirection` from snake.ts: no-op unless
`canQueueDirection`; otherwise fill slot 2 when slot 1 is occupied and
slot 2 empty, else fill slot 1. -/
def SnakeGame.queueDirection (g : SnakeGame) (newDirection : Direction) : SnakeGame :=
  if ¬ g.canQueueDirection newDirection then
    g
  else if g.queuedDir2 = none ∧ g.queuedDir1 ≠ none then
    { g with queuedDir2 := some newDirection }
  else
    { g with queuedDir1 := some newDirection }

/-- The direction `tick` will move in after dequeuing (the code's
`newDirection` local). -/
def SnakeGame.tickDirection (g : SnakeGame) : Direction :=
  match g.queuedDir1 with
  | some q1 => q1
  | none => g.direction

/-- Queue slot 1 after the dequeue step of `tick`. -/
def SnakeGame.tickQueued1 (g : SnakeGame) : Option Direction :=
  match g.queuedDir1 with
  | some _ => g.queuedDir2
  | none => g.queuedDir1

/-- Queue slot 2 after the dequeue step of `tick`. -/
def SnakeGame.tickQueued2 (g : SnakeGame) : Option Direction :=
  match g.queuedDir1 with
  | some _ => none
  | none => g.queuedDir2

/-- The code's `newHead`: head moved one cell in the dequeued direction.
The source reads `this.snake[0]`; the representation invariant keeps the
snake non-empty, so the `headD` default is never consulted on states the
class can hold. -/
def SnakeGame.tickHead (g : SnakeGame) : Pos :=
  getNextPosition (g.snake.headD ⟨0, 0⟩) g.tickDirection

/-- The code's `ateFood` test in `tick`. -/
def SnakeGame.tickAte (g : SnakeGame) : Prop :=
  g.tickHead = g.food

instance (g : SnakeGame) : Decidable g.tickAte := by
  unfold SnakeGame.tickAte; infer_instance

/-- The code's `newSnake` local in `tick`: grow (keep tail) on food,
else prepend the head and drop the last cell. -/
def SnakeGame.postMoveBody (g : SnakeGame) : List Pos :=
  if g.tickAte then g.tickHead :: g.snake else g.tickHead :: g.snake.dropLast

/-- Wall-collision test of `tick`: `newHead` outside the grid. -/
def SnakeGame.tickHitsWall (g : SnakeGame) : Prop :=
  g.tickHead.x < 0 ∨ g.tickHead.x ≥ g.gridWidth ∨
  g.tickHead.y < 0 ∨ g.tickHead.y ≥ g.gridHeight

instance (g : SnakeGame) : Decidable g.tickHitsWall := by
  unfold SnakeGame.tickHitsWall; infer_instance

/-- `SnakeGame.tick` from snake.ts. The environment readings are explicit
arguments: `draw` is the value produced by `generateFood`'s rejection
sampler when food is eaten this tick (the sampler always yields an
in-grid cell not on the new snake; `draw` is unused otherwise), and `now`
is the `Date.now()` reading used for `elapsedTime`.

Both collision branches return `{...this.serialize(), queuedDir1, queuedDir2,
status: GAME_OVER, direction}` — in particular the snake body, food and
score of the returned state are the pre-move ones. -/
def SnakeGame.tick (draw : Pos) (now : Int) (g : SnakeGame) : SnakeGame :=
  if g.status ≠ GameStatus.PLAYING then
    g
  else if g.tickHitsWall then
    { g with queuedDir1 := g.tickQueued1, queuedDir2 := g.tickQueued2,
             status := GameStatus.GAME_OVER, direction := g.tickDirection }
  else if g.tickHead ∈ g.postMoveBody.tail then
    { g with queuedDir1 := g.tickQueued1, queuedDir2 := g.tickQueued2,
             status := GameStatus.GAME_OVER, direction := g.tickDirection }
  else
    { snake := g.postMoveBody
      food := if g.tickAte then draw else g.food
      direction := g.tickDirection
      queuedDir1 := g.tickQueued1
      queuedDir2 := g.tickQueued2
      status := GameStatus.PLAYING
      score := if g.tickAte then g.score + 10 else g.score
      gridWidth := g.gridWidth
      gridHeight := g.gridHeight
      startTime := g.startTime
      elapsedTime := now - g.startTime
      tickCount := g.tickCount + 1 }

/-- `SnakeGame.start` from snake.ts: no-op while PLAYING; otherwise set
status to PLAYING, record `Date.now()` (the `now` argument) as the start
time and reset the elapsed time. All other fields, the queue slots
included, are carried over. -/
def SnakeGame.start (now : Int) (g : SnakeGame) : SnakeGame :=
  if g.status = GameStatus.PLAYING then
    g
  else
    { g with status := GameStatus.PLAYING, startTime := now, elapsedTime := 0 }

/-- The initial snake built by `SnakeGame.create`: `snakeLength` cells from
the grid center extending leftward. -/
def initialSnake (gridWidth gridHeight : Int) (snakeLength : Nat) : List Pos :=
  (List.range snakeLength).map (fun (i : Nat) => ⟨gridWidth / 2 - (i : Int), gridHeight / 2⟩)

/-- `SnakeGame.create` from snake.ts, with the food draw of the rejection
sampler made explicit. The source throws unless `snakeLength ≥ 1` and every
body cell has non-negative x; those conditions are side hypotheses of the
reachability relation below. -/
def SnakeGame.create (gridWidth gridHeight : Int) (snakeLength : Nat) (foodDraw : Pos) :
    SnakeGame :=
  { snake := initialSnake gridWidth gridHeight snakeLength
    food := foodDraw
    direction := Direction.RIGHT
    queuedDir1 := none
    queuedDir2 := none
    status := GameStatus.NOT_STARTED
    score := 0
    gridWidth := gridWidth
    gridHeight := gridHeight
    startTime := 0
    elapsedTime := 0
    tickCount := 0 }

/-- A position lies inside the `w × h` grid. -/
def inGrid (w h : Int) (p : Pos) : Prop :=
  0 ≤ p.x ∧ p.x < w ∧ 0 ≤ p.y ∧ p.y < h

instance (w h : Int) (p : Pos) : Decidable (inGrid w h p) := by
  unfold inGrid; infer_instance

end Snake

namespace Snake

/-- The "effective-next" direction of the spec's direction-admission rule:
the direction the snake will be moving in once already-queued directions
are consumed — queue slot 1 when occupied, else the current direction. -/
def effectiveNext (g : SnakeGame) : Direction :=
  match g.queuedDir1 with
  | some q1 => q1
  | none => g.direction

lemma queueDirection_of_cannot (g : SnakeGame) (d : Direction)
    (h : g.canQueueDirection d = false) : g.queueDirection d = g := by
  simp [SnakeGame.queueDirection, h]

lemma canQueue_false_iff (g : SnakeGame) (d : Direction)
    (h : g.queuedDir2.isSome → g.queuedDir1.isSome) :
    g.canQueueDirection d = false ↔
      (g.status ≠ GameStatus.PLAYING ∨ (g.queuedDir1.isSome ∧ g.queuedDir2.isSome) ∨
        d = effectiveNext g ∨ isOpposite d (effectiveNext g) = true) := by
  obtain ⟨sn, fd, dir, q1, q2, st, sc, w, ht, stt, et, tc⟩ := g
  simp only [Option.isSome] at h ⊢
  rcases q1 with _ | q1 <;> rcases q2 with _ | q2 <;> cases st <;>
    simp_all [SnakeGame.canQueueDirection, effectiveNext] <;>
    cases dir <;> cases d <;> simp_all [isOpposite] <;>
    first
      | rfl
      | (cases q1 <;> simp_all [isOpposite])

lemma queueDirection_of_can (g : SnakeGame) (d : Direction)
    (h : g.canQueueDirection d = true) :
    g.queueDirection d =
      (if g.queuedDir1.isSome then { g with queuedDir2 := some d }
       else { g with queuedDir1 := some d }) := by
  have h2 : g.queuedDir2 = none := by
    unfold SnakeGame.canQueueDirection at h
    rcases hq : g.queuedDir2 with _ | q2
    · rfl
    · rw [hq] at h; split at h <;> simp_all
  rcases hq1 : g.queuedDir1 with _ | q1 <;>
    simp [SnakeGame.queueDirection, h, h2, hq1]

end Snake

namespace Snake

/-- C4: on any state satisfying the queue representation invariant
(slot 2 occupied implies slot 1 occupied), `canQueueDirection d` is false
exactly when the game is not PLAYING, or both queue slots are occupied, or
`d` equals or is the opposite of the effective-next direction (queue slot 1
if occupied, else the current direction); and `queueDirection d` stores `d`
into the first empty slot when admission succeeds and otherwise returns the
state unchanged, signalling nothing. -/
theorem direction_admission_spec (g : SnakeGame) (d : Direction)
    (h : g.queuedDir2.isSome → g.queuedDir1.isSome) :
    (g.canQueueDirection d = false ↔
      (g.status ≠ GameStatus.PLAYING ∨ (g.queuedDir1.isSome ∧ g.queuedDir2.isSome) ∨
        d = effectiveNext g ∨ isOpposite d (effectiveNext g) = true)) ∧
    (g.canQueueDirection d = true →
      g.queueDirection d =
        (if g.queuedDir1.isSome then { g with queuedDir2 := some d }
         else { g with queuedDir1 := some d })) ∧
    (g.canQueueDirection d = false → g.queueDirection d = g) :=
  ⟨canQueue_false_iff g d h,
   fun hc => queueDirection_of_can g d hc,
   fun hc => queueDirection_of_cannot g d hc⟩

/-- A small concrete PLAYING state used by several witnesses: a
three-cell snake on a 10 × 10 grid, moving RIGHT, empty queue. -/
def sampleGame : SnakeGame :=
  { snake := [⟨5, 5⟩, ⟨4, 5⟩, ⟨3, 5⟩]
    food := ⟨7, 5⟩
    direction := Direction.RIGHT
    queuedDir1 := none
    queuedDir2 := none
    status := GameStatus.PLAYING
    score := 0
    gridWidth := 10
    gridHeight := 10
    startTime := 0
    elapsedTime := 0
    tickCount := 0 }

/-- Witness for C4 at a concrete state: queueing UP on `sampleGame` is
admitted and fills slot 1. -/
theorem direction_admission_spec_witness :
    (sampleGame.queuedDir2.isSome → sampleGame.queuedDir1.isSome) ∧
    (sampleGame.canQueueDirection Direction.UP = false ↔
      (sampleGame.status ≠ GameStatus.PLAYING ∨
        (sampleGame.queuedDir1.isSome ∧ sampleGame.queuedDir2.isSome) ∨
        Direction.UP = effectiveNext sampleGame ∨
        isOpposite Direction.UP (effectiveNext sampleGame) = true)) ∧
    (sampleGame.canQueueDirection Direction.UP = true →
      sampleGame.queueDirection Direction.UP =
        (if sampleGame.queuedDir1.isSome then
          { sampleGame with queuedDir2 := some Direction.UP }
         else { sampleGame with queuedDir1 := some Direction.UP })) ∧
    (sampleGame.canQueueDirection Direction.UP = false →
      sampleGame.queueDirection Direction.UP = sampleGame) :=
  ⟨by decide, direction_admission_spec sampleGame Direction.UP (by decide)⟩

/-- C10: `start()` on a GAME_OVER state returns a PLAYING state with the
snake, food, direction, queued directions, score, grid dimensions and tick
count unchanged and the elapsed time reset to 0 — resurrecting a finished
game — while `tick` and `queueDirection` are no-ops as long as the state
stays GAME_OVER. -/
theorem start_resurrects_game_over (g : SnakeGame) (now : Int)
    (h : g.status = GameStatus.GAME_OVER) :
    (g.start now).status = GameStatus.PLAYING ∧
    (g.start now).snake = g.snake ∧
    (g.start now).food = g.food ∧
    (g.start now).direction = g.direction ∧
    (g.start now).queuedDir1 = g.queuedDir1 ∧
    (g.start now).queuedDir2 = g.queuedDir2 ∧
    (g.start now).score = g.score ∧
    (g.start now).gridWidth = g.gridWidth ∧
    (g.start now).gridHeight = g.gridHeight ∧
    (g.start now).tickCount = g.tickCount ∧
    (g.start now).elapsedTime = 0 ∧
    (∀ draw now2, g.tick draw now2 = g) ∧
    (∀ d, g.queueDirection d = g) := by
  have hns : g.status ≠ GameStatus.PLAYING := by rw [h]; intro hc; cases hc
  refine ⟨?_, ?_, ?_, ?_, ?_, ?_, ?_, ?_, ?_, ?_, ?_, ?_, ?_⟩ <;>
    simp [SnakeGame.start, SnakeGame.tick, hns,
      queueDirection_of_cannot, SnakeGame.canQueueDirection]

/-- A concrete GAME_OVER state: `sampleGame` after hitting a wall. -/
def gameOverSample : SnakeGame :=
  { sampleGame with status := GameStatus.GAME_OVER, tickCount := 7, elapsedTime := 42 }

/-- Witness for C10 at a concrete GAME_OVER state. -/
theorem start_resurrects_game_over_witness :
    (gameOverSample.start 99).status = GameStatus.PLAYING ∧
    (gameOverSample.start 99).snake = gameOverSample.snake ∧
    (gameOverSample.start 99).food = gameOverSample.food ∧
    (gameOverSample.start 99).direction = gameOverSample.direction ∧
    (gameOverSample.start 99).queuedDir1 = gameOverSample.queuedDir1 ∧
    (gameOverSample.start 99).queuedDir2 = gameOverSample.queuedDir2 ∧
    (gameOverSample.start 99).score = gameOverSample.score ∧
    (gameOverSample.start 99).gridWidth = gameOverSample.gridWidth ∧
    (gameOverSample.start 99).gridHeight = gameOverSample.gridHeight ∧
    (gameOverSample.start 99).tickCount = gameOverSample.tickCount ∧
    (gameOverSample.start 99).elapsedTime = 0 ∧
    (∀ draw now2, gameOverSample.tick draw now2 = gameOverSample) ∧
    (∀ d, gameOverSample.queueDirection d = gameOverSample) :=
  start_resurrects_game_over gameOverSample 99 (by decide)

end Snake

namespace Snake

/-- A PLAYING state one step away from a self collision: a five-cell snake
curled so that moving DOWN re-enters its own body on a 5 × 5 grid. -/
def selfCollisionGame : SnakeGame :=
  { snake := [⟨2, 2⟩, ⟨3, 2⟩, ⟨3, 3⟩, ⟨2, 3⟩, ⟨1, 3⟩]
    food := ⟨0, 0⟩
    direction := Direction.DOWN
    queuedDir1 := none
    queuedDir2 := none
    status := GameStatus.PLAYING
    score := 0
    gridWidth := 5
    gridHeight := 5
    startTime := 0
    elapsedTime := 0
    tickCount := 0 }

/-- Counterexample to C3 as stated: `selfCollisionGame` satisfies every
hypothesis of the claim (PLAYING, new head in the grid, new head among the
post-move body cells at indices [1..end)), yet the snake of the state
returned by `tick` is not the post-move body — the source's self-collision
branch returns `{...this.serialize(), ...}`, freezing the pre-move body. -/
theorem tick_selfCollision_claim_counterexample :
    selfCollisionGame.status = GameStatus.PLAYING ∧
    ¬ selfCollisionGame.tickHitsWall ∧
    selfCollisionGame.tickHead ∈ selfCollisionGame.postMoveBody.tail ∧
    (selfCollisionGame.tick ⟨0, 0⟩ 0).status = GameStatus.GAME_OVER ∧
    (selfCollisionGame.tick ⟨0, 0⟩ 0).snake ≠ selfCollisionGame.postMoveBody := by
  decide

/-- C3 (amended): on a PLAYING state whose next head position is inside the
grid and coincides with a post-move body cell at indices [1..end), `tick`
returns a GAME_OVER state whose snake is the old, pre-move body — the
colliding post-move body is discarded; only the direction and queue slots
advance to their dequeued values, and food, score, elapsed time and tick
count stay unchanged. -/
theorem tick_selfCollision_freezes_old_body (g : SnakeGame) (draw : Pos) (now : Int)
    (hp : g.status = GameStatus.PLAYING)
    (hw : ¬ g.tickHitsWall)
    (hc : g.tickHead ∈ g.postMoveBody.tail) :
    (g.tick draw now).status = GameStatus.GAME_OVER ∧
    (g.tick draw now).snake = g.snake ∧
    (g.tick draw now).food = g.food ∧
    (g.tick draw now).score = g.score ∧
    (g.tick draw now).direction = g.tickDirection ∧
    (g.tick draw now).queuedDir1 = g.tickQueued1 ∧
    (g.tick draw now).queuedDir2 = g.tickQueued2 ∧
    (g.tick draw now).elapsedTime = g.elapsedTime ∧
    (g.tick draw now).tickCount = g.tickCount := by
  simp [SnakeGame.tick, hp, hw, hc]

/-- Witness for the amended C3 at the concrete colliding state. -/
theorem tick_selfCollision_freezes_old_body_witness :
    (selfCollisionGame.status = GameStatus.PLAYING ∧
      ¬ selfCollisionGame.tickHitsWall ∧
      selfCollisionGame.tickHead ∈ selfCollisionGame.postMoveBody.tail) ∧
    ((selfCollisionGame.tick ⟨0, 0⟩ 0).status = GameStatus.GAME_OVER ∧
      (selfCollisionGame.tick ⟨0, 0⟩ 0).snake = selfCollisionGame.snake ∧
      (selfCollisionGame.tick ⟨0, 0⟩ 0).food = selfCollisionGame.food ∧
      (selfCollisionGame.tick ⟨0, 0⟩ 0).score = selfCollisionGame.score ∧
      (selfCollisionGame.tick ⟨0, 0⟩ 0).direction = selfCollisionGame.tickDirection ∧
      (selfCollisionGame.tick ⟨0, 0⟩ 0).queuedDir1 = selfCollisionGame.tickQueued1 ∧
      (selfCollisionGame.tick ⟨0, 0⟩ 0).queuedDir2 = selfCollisionGame.tickQueued2 ∧
      (selfCollisionGame.tick ⟨0, 0⟩ 0).elapsedTime = selfCollisionGame.elapsedTime ∧
      (selfCollisionGame.tick ⟨0, 0⟩ 0).tickCount = selfCollisionGame.tickCount) :=
  ⟨⟨by decide, by decide, by decide⟩,
   tick_selfCollision_freezes_old_body selfCollisionGame ⟨0, 0⟩ 0
     (by decide) (by decide) (by decide)⟩

end Snake

namespace Snake

/-- A call of the public simulation interface named by the determinism
property: `queueDirection(d)` or `tick()`. -/
inductive ApiCall where
  | queueDir (d : Direction)
  | tickCall
deriving DecidableEq, Repr

/-- Apply one public call. A `tick` call consumes one environment reading
`o`: the food draw `Math.random` would produce and the `Date.now()` value. -/
def applyCall (g : SnakeGame) (c : ApiCall) (o : Pos × Int) : SnakeGame :=
  match c with
  | ApiCall.queueDir d => g.queueDirection d
  | ApiCall.tickCall => SnakeGame.tick o.1 o.2 g

/-- Run a `SnakeGame` instance through an ordered sequence of
`queueDirection`/`tick` calls, recording the serialized state after every
call. `env n` is the environment reading available to the n-th call. -/
def runStates : SnakeGame → List ApiCall → (Nat → Pos × Int) → List GameState
  | _, [], _ => []
  | g, c :: cs, env =>
      (applyCall g c (env 0)).serialize ::
        runStates (applyCall g c (env 0)) cs (fun n => env (n + 1))

/-- A PLAYING state about to eat: single-cell snake at (1,1) on a 3 × 3
grid, food directly to its right. -/
def eatGame : SnakeGame :=
  { snake := [⟨1, 1⟩]
    food := ⟨2, 1⟩
    direction := Direction.RIGHT
    queuedDir1 := none
    queuedDir2 := none
    status := GameStatus.PLAYING
    score := 0
    gridWidth := 3
    gridHeight := 3
    startTime := 0
    elapsedTime := 0
    tickCount := 0 }

/-- Counterexample to C1 as stated: two `SnakeGame` instances created from
the same initial state (`eatGame`) and fed the identical call sequence
(one `tick`) serialize to different `GameState` values when the food
rejection sampler inside that tick draws different cells — both draws
shown here are legitimate sampler outputs (inside the grid, off the grown
snake), so both runs are possible executions of the source, which seeds
`generateFood` from `Math.random` rather than from the game state. -/
theorem determinism_claim_counterexample :
    inGrid 3 3 ⟨0, 0⟩ ∧ (⟨0, 0⟩ : Pos) ∉ eatGame.postMoveBody ∧
    inGrid 3 3 ⟨0, 2⟩ ∧ (⟨0, 2⟩ : Pos) ∉ eatGame.postMoveBody ∧
    runStates eatGame [ApiCall.tickCall] (fun _ => (⟨0, 0⟩, 0)) ≠
      runStates eatGame [ApiCall.tickCall] (fun _ => (⟨0, 2⟩, 0)) := by
  decide

/-- C1 (amended): the simulation is deterministic relative to its
environment — two independent instances created from the same initial
state and fed the identical ordered `queueDirection`/`tick` call sequence
produce identical serialized states after every call, provided both runs
observe the same `Math.random` food draws and the same `Date.now()`
readings. (Without that proviso the property fails; see the
counterexample, where a food-eating tick regenerates food from the
unseeded global RNG.) -/
theorem determinism_given_identical_oracles (g : SnakeGame) (calls : List ApiCall)
    (env1 env2 : Nat → Pos × Int) (h : ∀ n, env1 n = env2 n) :
    runStates g calls env1 = runStates g calls env2 := by
  induction calls generalizing g env1 env2 with
  | nil => rfl
  | cons c cs ih =>
      have h0 : env1 0 = env2 0 := h 0
      simp only [runStates, h0]
      exact congrArg _ (ih _ _ _ fun n => h (n + 1))

/-- Witness for the amended C1: two runs of the one-tick sequence under the
same environment readings coincide. -/
theorem determinism_given_identical_oracles_witness :
    (∀ n : Nat, (fun _ : Nat => ((⟨0, 0⟩ : Pos), (0 : Int))) n =
      (fun _ : Nat => ((⟨0, 0⟩ : Pos), (0 : Int))) n) ∧
    runStates eatGame [ApiCall.tickCall] (fun _ => (⟨0, 0⟩, 0)) =
      runStates eatGame [ApiCall.tickCall] (fun _ => (⟨0, 0⟩, 0)) :=
  ⟨fun _ => rfl,
   determinism_given_identical_oracles eatGame [ApiCall.tickCall] _ _ (fun _ => rfl)⟩

end Snake

namespace Snake

lemma postMoveBody_def (g : SnakeGame) :
    g.postMoveBody = g.tickHead :: (if g.tickAte then g.snake else g.snake.dropLast) := by
  unfold SnakeGame.postMoveBody
  split <;> simp_all

lemma postMoveBody_tail (g : SnakeGame) :
    g.postMoveBody.tail = (if g.tickAte then g.snake else g.snake.dropLast) := by
  rw [postMoveBody_def, List.tail_cons]

/-- The strengthened inductive invariant used to establish the claimed
one: it additionally pins the grid dimensions and asks the whole snake —
head included — to be duplicate-free (which reachable states satisfy,
because a tick whose post-move head would land on the body returns the
pre-move body instead). -/
def StrongInv (w h : Int) (g : SnakeGame) : Prop :=
  g.gridWidth = w ∧ g.gridHeight = h ∧
  g.snake ≠ [] ∧
  (∀ p ∈ g.snake, inGrid w h p) ∧
  inGrid w h g.food ∧
  g.food ∉ g.snake ∧
  0 ≤ g.score ∧
  (g.queuedDir2.isSome → g.queuedDir1.isSome) ∧
  (∀ a b, g.queuedDir1 = some a → g.queuedDir2 = some b → a ≠ b) ∧
  g.snake.Nodup

lemma create_strongInv (w h : Int) (len : Nat) (foodDraw : Pos)
    (hlen : 1 ≤ len) (hw : 0 < w) (hh : 0 < h)
    (hfit : (len : Int) - 1 ≤ w / 2)
    (hf1 : inGrid w h foodDraw) (hf2 : foodDraw ∉ initialSnake w h len) :
    StrongInv w h (SnakeGame.create w h len foodDraw) := by
  refine ⟨rfl, rfl, ?_, ?_, hf1, hf2, le_refl 0, by simp [SnakeGame.create],
    by simp [SnakeGame.create], ?_⟩
  · simp only [SnakeGame.create, initialSnake, ne_eq, List.map_eq_nil_iff,
      List.range_eq_nil]
    omega
  · intro p hp
    unfold SnakeGame.create initialSnake at hp
    rw [List.mem_map] at hp
    obtain ⟨i, hi, rfl⟩ := hp
    rw [List.mem_range] at hi
    have hi2 : (i : Int) < (len : Int) := by exact_mod_cast hi
    show 0 ≤ w / 2 - (i : Int) ∧ w / 2 - (i : Int) < w ∧ 0 ≤ h / 2 ∧ h / 2 < h
    omega
  · show (initialSnake w h len).Nodup
    unfold initialSnake
    refine (List.nodup_range len).map ?_
    intro a b hab
    simp only [Pos.mk.injEq] at hab
    omega

lemma start_strongInv (w h : Int) (g : SnakeGame) (now : Int)
    (hg : StrongInv w h g) : StrongInv w h (g.start now) := by
  unfold SnakeGame.start
  split
  · exact hg
  · exact hg

lemma canQueue_queuedDir2_none (g : SnakeGame) (d : Direction)
    (hc : g.canQueueDirection d = true) : g.queuedDir2 = none := by
  unfold SnakeGame.canQueueDirection at hc
  rcases hq : g.queuedDir2 with _ | q2
  · rfl
  · rw [hq] at hc
    split at hc <;> simp_all

lemma canQueue_ne_slot1 (g : SnakeGame) (d q1 : Direction)
    (hc : g.canQueueDirection d = true) (h1 : g.queuedDir1 = some q1) : d ≠ q1 := by
  have h2 := canQueue_queuedDir2_none g d hc
  unfold SnakeGame.canQueueDirection at hc
  rw [h2, h1] at hc
  split at hc <;> simp_all

lemma queueDirection_strongInv (w h : Int) (g : SnakeGame) (d : Direction)
    (hg : StrongInv w h g) : StrongInv w h (g.queueDirection d) := by
  by_cases hc : g.canQueueDirection d = true
  · rw [queueDirection_of_can g d hc]
    obtain ⟨e1, e2, e3, e4, e5, e6, e7, e8, e9, e10⟩ := hg
    have h2 := canQueue_queuedDir2_none g d hc
    rcases h1 : g.queuedDir1 with _ | q1
    · simp only [h1, Option.isSome_none, Bool.false_eq_true, if_neg]
      refine ⟨e1, e2, e3, e4, e5, e6, e7, ?_, ?_, e10⟩
      · intro hs
        simp
      · intro a b ha hb
        simp [h2] at hb
    · simp only [h1, Option.isSome_some, if_pos]
      refine ⟨e1, e2, e3, e4, e5, e6, e7, ?_, ?_, e10⟩
      · intro hs
        simp
      · intro a b ha hb
        have ha2 : q1 = a := by simpa using ha
        have hb2 : d = b := by simpa using hb
        subst ha2
        subst hb2
        exact fun hab => canQueue_ne_slot1 g d q1 hc h1 hab.symm
  · rw [queueDirection_of_cannot g d (by simpa using hc)]
    exact hg

lemma tickQueued_inv (g : SnakeGame)
    (h8 : g.queuedDir2.isSome → g.queuedDir1.isSome) :
    (g.tickQueued2.isSome → g.tickQueued1.isSome) ∧
    (∀ a b, g.tickQueued1 = some a → g.tickQueued2 = some b → a ≠ b) := by
  unfold SnakeGame.tickQueued1 SnakeGame.tickQueued2
  rcases h1 : g.queuedDir1 with _ | q1
  · have h2 : g.queuedDir2 = none := by
      rcases h2 : g.queuedDir2 with _ | q2
      · rfl
      · have := h8 (by simp [h2])
        rw [h1] at this
        simp at this
    simp [h2]
  · simp

lemma gameOver_record_strongInv (w h : Int) (g : SnakeGame)
    (hg : StrongInv w h g) :
    StrongInv w h { g with queuedDir1 := g.tickQueued1, queuedDir2 := g.tickQueued2,
                           status := GameStatus.GAME_OVER, direction := g.tickDirection } := by
  obtain ⟨e1, e2, e3, e4, e5, e6, e7, e8, e9, e10⟩ := hg
  obtain ⟨f1, f2⟩ := tickQueued_inv g e8
  exact ⟨e1, e2, e3, e4, e5, e6, e7, f1, f2, e10⟩

lemma tick_strongInv (w h : Int) (g : SnakeGame) (draw : Pos) (now : Int)
    (hdraw : g.tickAte → inGrid w h draw ∧ draw ∉ g.postMoveBody)
    (hg : StrongInv w h g) : StrongInv w h (g.tick draw now) := by
  unfold SnakeGame.tick
  split
  · exact hg
  split
  · exact gameOver_record_strongInv w h g hg
  split
  · exact gameOver_record_strongInv w h g hg
  next hstat hwall hcol =>
    obtain ⟨e1, e2, e3, e4, e5, e6, e7, e8, e9, e10⟩ := hg
    have hhead : inGrid w h g.tickHead := by
      unfold SnakeGame.tickHitsWall at hwall
      rw [e1, e2] at hwall
      unfold inGrid
      omega
    obtain ⟨f1, f2⟩ := tickQueued_inv g e8
    refine ⟨e1, e2, ?_, ?_, ?_, ?_, ?_, f1, f2, ?_⟩
    · rw [postMoveBody_def]
      simp
    · intro p hp
      rw [postMoveBody_def] at hp
      rcases List.mem_cons.mp hp with rfl | hp2
      · exact hhead
      · by_cases hate : g.tickAte
        · rw [if_pos hate] at hp2
          exact e4 p hp2
        · rw [if_neg hate] at hp2
          exact e4 p ((List.dropLast_sublist g.snake).subset hp2)
    · show inGrid w h (if g.tickAte then draw else g.food)
      by_cases hate : g.tickAte
      · rw [if_pos hate]
        exact (hdraw hate).1
      · rw [if_neg hate]
        exact e5
    · show (if g.tickAte then draw else g.food) ∉ g.postMoveBody
      by_cases hate : g.tickAte
      · rw [if_pos hate]
        exact (hdraw hate).2
      · rw [if_neg hate, postMoveBody_def, if_neg hate]
        intro hmem
        rcases List.mem_cons.mp hmem with heq | hmem2
        · exact hate heq.symm
        · exact e6 ((List.dropLast_sublist g.snake).subset hmem2)
    · show 0 ≤ (if g.tickAte then g.score + 10 else g.score)
      by_cases hate : g.tickAte
      · rw [if_pos hate]
        omega
      · rw [if_neg hate]
        exact e7
    · show g.postMoveBody.Nodup
      rw [postMoveBody_def, List.nodup_cons]
      refine ⟨?_, ?_⟩
      · rw [← postMoveBody_tail]
        exact hcol
      · by_cases hate : g.tickAte
        · rw [if_pos hate]
          exact e10
        · rw [if_neg hate]
          exact e10.sublist (List.dropLast_sublist g.snake)

/-- States reachable through the public interface from a successful
`create(w, h, len)` by any sequence of `start`, `queueDirection` and
`tick` calls. The side conditions on `create` are the ones under which the
source constructor does not throw; the side condition on `tick` says the
food draw is a possible output of the rejection sampler (an in-grid cell
off the grown snake) whenever that tick eats. -/
inductive Reachable (w h : Int) (len : Nat) : SnakeGame → Prop where
  | create (foodDraw : Pos)
      (hlen : 1 ≤ len) (hw : 0 < w) (hh : 0 < h)
      (hfit : (len : Int) - 1 ≤ w / 2)
      (hf1 : inGrid w h foodDraw) (hf2 : foodDraw ∉ initialSnake w h len) :
      Reachable w h len (SnakeGame.create w h len foodDraw)
  | start (g : SnakeGame) (now : Int) :
      Reachable w h len g → Reachable w h len (g.start now)
  | queue (g : SnakeGame) (d : Direction) :
      Reachable w h len g → Reachable w h len (g.queueDirection d)
  | tick (g : SnakeGame) (draw : Pos) (now : Int)
      (hdraw : g.tickAte → inGrid w h draw ∧ draw ∉ g.postMoveBody) :
      Reachable w h len g → Reachable w h len (g.tick draw now)

lemma reachable_strongInv (w h : Int) (len : Nat) (g : SnakeGame)
    (hr : Reachable w h len g) : StrongInv w h g := by
  induction hr with
  | create foodDraw hlen hw hh hfit hf1 hf2 =>
      exact create_strongInv w h len foodDraw hlen hw hh hfit hf1 hf2
  | start g now _ ih => exact start_strongInv w h g now ih
  | queue g d _ ih => exact queueDirection_strongInv w h g d ih
  | tick g draw now hdraw _ ih => exact tick_strongInv w h g draw now hdraw ih

/-- The conjunction of invariants claimed for reachable states. -/
def ClaimInvariant (w h : Int) (g : SnakeGame) : Prop :=
  g.snake ≠ [] ∧
  (∀ p ∈ g.snake, inGrid w h p) ∧
  inGrid w h g.food ∧
  g.food ∉ g.snake ∧
  0 ≤ g.score ∧
  (g.queuedDir2.isSome → g.queuedDir1.isSome) ∧
  (∀ a b, g.queuedDir1 = some a → g.queuedDir2 = some b → a ≠ b) ∧
  g.snake.tail.Nodup

/-- C5: every state reachable from `create(w, h, len)` by any sequence of
`start`/`queueDirection`/`tick` calls has a non-empty snake, keeps every
snake cell and the food inside the `w × h` grid, keeps the food off the
snake, keeps the score non-negative, satisfies the queue-slot invariant
(slot 2 occupied implies slot 1 occupied; both occupied implies distinct),
and has no duplicate cells among the snake positions at indices
[1..end). -/
theorem reachable_states_satisfy_invariants (w h : Int) (len : Nat) (g : SnakeGame)
    (hr : Reachable w h len g) : ClaimInvariant w h g := by
  obtain ⟨e1, e2, e3, e4, e5, e6, e7, e8, e9, e10⟩ := reachable_strongInv w h len g hr
  exact ⟨e3, e4, e5, e6, e7, e8, e9, e10.sublist (List.tail_sublist g.snake)⟩

/-- Witness for C5: the invariants hold at a concrete freshly created game
(a one-cell snake on a 5 × 5 grid with food at the origin). -/
theorem reachable_states_satisfy_invariants_witness :
    ClaimInvariant 5 5 (SnakeGame.create 5 5 1 ⟨0, 0⟩) :=
  reachable_states_satisfy_invariants 5 5 1 (SnakeGame.create 5 5 1 ⟨0, 0⟩)
    (Reachable.create ⟨0, 0⟩ (by decide) (by decide) (by decide) (by decide)
      (by decide) (by decide))

end Snake

namespace Multiplayer

/-- `InputPacket` from multiplayer.ts. -/
structure InputPacket (I : Type) where
  tick : Int
  inputId : Int
  payload : I
deriving DecidableEq, Repr

/-- `StatePacket` from multiplayer.ts. -/
structure StatePacket (S : Type) where
  tick : Int
  lastProcessedInputId : Int
  state : S
deriving DecidableEq, Repr

/-- An entry of the server's `inputQueue`. -/
structure QueuedInput (I : Type) where
  targetTick : Int
  inputId : Int
  payload : I
deriving DecidableEq, Repr

/-- The mutable fields of `MultiplayerClient`. The injected `applyInput`
and `simulate` operations are passed to each method that uses them; the
injected `cloneState` deep-copies a value and is the identity in this
value-semantics embedding. -/
structure MClient (S I : Type) where
  state : S
  currentTick : Int
  pendingInputs : List (InputPacket I)
  nextInputId : Int
deriving DecidableEq, Repr

/-- The mutable fields of `MultiplayerServer`. -/
structure MServer (S I : Type) where
  state : S
  currentTick : Int
  inputQueue : List (QueuedInput I)
  lastProcessedInputId : Int
deriving DecidableEq, Repr

/-- The `MultiplayerClient` constructor: clones the initial state, tick 0,
no pending inputs, next input id 0. -/
def MClient.init {S I : Type} (initialState : S) : MClient S I :=
  { state := initialState, currentTick := 0, pendingInputs := [], nextInputId := 0 }

/-- `MultiplayerClient.input`: assign the next input id, apply the input
locally (optimistic prediction), append the packet to the pending queue,
and emit it (the second component) for transmission. -/
def MClient.input {S I : Type} (applyInput : S → I → S) (c : MClient S I) (i : I) :
    MClient S I × InputPacket I :=
  let packet : InputPacket I := { tick := c.currentTick, inputId := c.nextInputId, payload := i }
  ({ state := applyInput c.state i
     currentTick := c.currentTick
     pendingInputs := c.pendingInputs ++ [packet]
     nextInputId := c.nextInputId + 1 }, packet)

/-- `MultiplayerClient.tick`: advance the local prediction one step. -/
def MClient.tick {S I : Type} (simulate : S → S) (c : MClient S I) : MClient S I :=
  { c with currentTick := c.currentTick + 1, state := simulate c.state }

/-- `MultiplayerClient.onServerState`: drop acknowledged pending inputs,
snap to the server state and tick, then re-apply the surviving pending
inputs in order. The method never invokes the injected `simulate`
operation, which is why it is not a parameter here. -/
def MClient.onServerState {S I : Type} (applyInput : S → I → S) (c : MClient S I)
    (p : StatePacket S) : MClient S I :=
  let pending := c.pendingInputs.filter (fun q => p.lastProcessedInputId < q.inputId)
  { state := pending.foldl (fun st q => applyInput st q.payload) p.state
    currentTick := p.tick
    pendingInputs := pending
    nextInputId := c.nextInputId }

/-- The `MultiplayerServer` constructor: clones the initial state, tick 0,
empty input queue, `lastProcessedInputId = -1`. -/
def MServer.init {S I : Type} (initialState : S) : MServer S I :=
  { state := initialState, currentTick := 0, inputQueue := [], lastProcessedInputId := -1 }

/-- The `targetTick` computed by `onClientInput`: the packet's declared
tick, or the server's current tick when the declared tick is already in
the past. -/
def MServer.rescheduleTarget {S I : Type} (s : MServer S I) (p : InputPacket I) : Int :=
  if p.tick < s.currentTick then s.currentTick else p.tick

/-- `MultiplayerServer.onClientInput`: enqueue the packet, rescheduled to
the current tick when its declared tick is already in the past. -/
def MServer.onClientInput {S I : Type} (s : MServer S I) (p : InputPacket I) : MServer S I :=
  { s with inputQueue := s.inputQueue ++
      [{ targetTick := s.rescheduleTarget p
         inputId := p.inputId
         payload := p.payload }] }

/-- The sub-queue of inputs scheduled for the server's current tick — the
exact list whose payloads the next `tick()` call feeds to `applyInput`. -/
def MServer.inputsForTick {S I : Type} (s : MServer S I) : List (QueuedInput I) :=
  s.inputQueue.filter (fun q => q.targetTick = s.currentTick)

/-- `MultiplayerServer.tick`: apply the inputs scheduled for the current
tick in queue order, raise `lastProcessedInputId` to the largest id
applied, simulate one step, advance the tick, and emit the state packet
(second component). -/
def MServer.tick {S I : Type} (applyInput : S → I → S) (simulate : S → S)
    (s : MServer S I) : MServer S I × StatePacket S :=
  let applied := s.inputsForTick
  let rest := s.inputQueue.filter (fun q => ¬ q.targetTick = s.currentTick)
  let state1 := applied.foldl (fun st q => applyInput st q.payload) s.state
  let lastId := applied.foldl (fun m q => max m q.inputId) s.lastProcessedInputId
  let state2 := simulate state1
  ({ state := state2
     currentTick := s.currentTick + 1
     inputQueue := rest
     lastProcessedInputId := lastId },
   { tick := s.currentTick + 1, lastProcessedInputId := lastId, state := state2 })

/-- Iterate `MultiplayerServer.tick` (discarding the emitted packets). -/
def MServer.tickN {S I : Type} (applyInput : S → I → S) (simulate : S → S) :
    Nat → MServer S I → MServer S I
  | 0, s => s
  | n + 1, s => MServer.tickN applyInput simulate n (s.tick applyInput simulate).1

/-- C6: `onServerState` drops exactly the pending inputs whose id is
acknowledged (≤ the packet's `lastProcessedInputId`), preserving their
order; sets the local state to the packet's state with the surviving
pending payloads re-applied in order via `applyInput`; hard-snaps
`currentTick` to the packet's tick; and leaves `nextInputId` alone. It
performs no `simulate` step: the reconciled state is determined by
`applyInput` and the packet only. -/
theorem onServerState_spec {S I : Type} (applyInput : S → I → S)
    (c : MClient S I) (p : StatePacket S) :
    (c.onServerState applyInput p).pendingInputs =
      c.pendingInputs.filter (fun q => p.lastProcessedInputId < q.inputId) ∧
    (c.onServerState applyInput p).state =
      (c.pendingInputs.filter (fun q => p.lastProcessedInputId < q.inputId)).foldl
        (fun st q => applyInput st q.payload) p.state ∧
    (c.onServerState applyInput p).currentTick = p.tick ∧
    (c.onServerState applyInput p).nextInputId = c.nextInputId :=
  ⟨rfl, rfl, rfl, rfl⟩

lemma tickN_currentTick {S I : Type} (applyInput : S → I → S) (simulate : S → S)
    (k : Nat) (s : MServer S I) :
    (MServer.tickN applyInput simulate k s).currentTick = s.currentTick + k := by
  induction k generalizing s with
  | zero => simp [MServer.tickN]
  | succ n ih =>
      rw [MServer.tickN, ih]
      show s.currentTick + 1 + (n : Int) = s.currentTick + (n + 1 : Nat)
      push_cast
      ring

lemma tickN_mem_inputQueue {S I : Type} (applyInput : S → I → S) (simulate : S → S)
    (k : Nat) (s : MServer S I) (e : QueuedInput I)
    (hmem : e ∈ s.inputQueue) (htarget : s.currentTick + k ≤ e.targetTick) :
    e ∈ (MServer.tickN applyInput simulate k s).inputQueue := by
  induction k generalizing s with
  | zero => simpa [MServer.tickN] using hmem
  | succ n ih =>
      rw [MServer.tickN]
      refine ih _ ?_ ?_
      · show e ∈ s.inputQueue.filter (fun q => ¬ q.targetTick = s.currentTick)
        rw [List.mem_filter]
        refine ⟨hmem, ?_⟩
        simp only [decide_eq_true_eq]
        intro hc
        rw [hc] at htarget
        omega
      · show (s.tick applyInput simulate).1.currentTick + (n : Int) ≤ e.targetTick
        show s.currentTick + 1 + (n : Int) ≤ e.targetTick
        push_cast at htarget ⊢
        omega

end Multiplayer

namespace Multiplayer

lemma init_le_foldl_max (l : List Int) (a : Int) : a ≤ l.foldl max a := by
  induction l generalizing a with
  | nil => exact le_refl a
  | cons y ys ih => exact le_trans (le_max_left a y) (ih (max a y))

lemma le_foldl_max (l : List Int) (a x : Int) (hx : x ∈ l) : x ≤ l.foldl max a := by
  induction l generalizing a with
  | nil => cases hx
  | cons y ys ih =>
      rcases List.mem_cons.mp hx with rfl | hx2
      · exact le_trans (le_max_right a x) (init_le_foldl_max ys (max a x))
      · exact ih (max a y) hx2

end Multiplayer

namespace Multiplayer

/-- C7: an accepted client input is never discarded. `onClientInput`
always enqueues the packet; a packet addressed to a past tick is
rescheduled to the server's current tick and belongs to the batch the very
next `tick()` call applies; in general the packet is applied by the
`tick()` call executed when the server's tick counter reaches
`max(packet.tick, currentTick-at-receipt)` — after that many further
ticks the entry is still queued and sits in `inputsForTick`, the list of
payloads `tick()` folds through `applyInput` (final conjunct). -/
theorem late_input_liveness {S I : Type} (applyInput : S → I → S) (simulate : S → S)
    (s : MServer S I) (p : InputPacket I) :
    ((s.onClientInput p).inputQueue =
      s.inputQueue ++ [⟨s.rescheduleTarget p, p.inputId, p.payload⟩]) ∧
    (p.tick < s.currentTick →
      s.rescheduleTarget p = s.currentTick ∧
      (⟨s.rescheduleTarget p, p.inputId, p.payload⟩ : QueuedInput I) ∈
        (s.onClientInput p).inputsForTick) ∧
    (s.rescheduleTarget p = max p.tick s.currentTick) ∧
    ((MServer.tickN applyInput simulate (s.rescheduleTarget p - s.currentTick).toNat
        (s.onClientInput p)).currentTick = s.rescheduleTarget p) ∧
    ((⟨s.rescheduleTarget p, p.inputId, p.payload⟩ : QueuedInput I) ∈
      (MServer.tickN applyInput simulate (s.rescheduleTarget p - s.currentTick).toNat
        (s.onClientInput p)).inputsForTick) ∧
    (∀ s2 : MServer S I, (s2.tick applyInput simulate).1.state =
      simulate (s2.inputsForTick.foldl (fun st q => applyInput st q.payload) s2.state)) := by
  have hts : s.currentTick ≤ s.rescheduleTarget p := by
    unfold MServer.rescheduleTarget
    split <;> omega
  have hq : (s.onClientInput p).inputQueue =
      s.inputQueue ++ [⟨s.rescheduleTarget p, p.inputId, p.payload⟩] := rfl
  have hct : (s.onClientInput p).currentTick = s.currentTick := rfl
  have hmem0 : (⟨s.rescheduleTarget p, p.inputId, p.payload⟩ : QueuedInput I) ∈
      (s.onClientInput p).inputQueue := by
    rw [hq]
    exact List.mem_append_right _ (List.mem_singleton.mpr rfl)
  have hk : (s.onClientInput p).currentTick +
      (((s.rescheduleTarget p - s.currentTick).toNat : Nat) : Int) =
        s.rescheduleTarget p := by
    rw [hct, Int.toNat_of_nonneg (by omega)]
    omega
  refine ⟨rfl, ?_, ?_, ?_, ?_, fun s2 => rfl⟩
  · intro hlt
    have hres : s.rescheduleTarget p = s.currentTick := by
      unfold MServer.rescheduleTarget
      rw [if_pos hlt]
    refine ⟨hres, ?_⟩
    unfold MServer.inputsForTick
    rw [List.mem_filter]
    refine ⟨hmem0, ?_⟩
    simp only [decide_eq_true_eq]
    rw [hct]
    exact hres
  · unfold MServer.rescheduleTarget
    rcases lt_or_ge p.tick s.currentTick with hl | hl
    · rw [if_pos hl, max_eq_right hl.le]
    · rw [if_neg (not_lt.mpr hl), max_eq_left hl]
  · rw [tickN_currentTick]
    exact hk
  · have hmem : (⟨s.rescheduleTarget p, p.inputId, p.payload⟩ : QueuedInput I) ∈
        (MServer.tickN applyInput simulate (s.rescheduleTarget p - s.currentTick).toNat
          (s.onClientInput p)).inputQueue :=
      tickN_mem_inputQueue applyInput simulate _ _ _ hmem0 (le_of_eq hk)
    unfold MServer.inputsForTick
    rw [List.mem_filter]
    refine ⟨hmem, ?_⟩
    simp only [decide_eq_true_eq]
    rw [tickN_currentTick]
    exact hk.symm

/-- A concrete server three ticks in, with an empty queue. -/
def lateServer : MServer Int Int :=
  { state := 0, currentTick := 2, inputQueue := [], lastProcessedInputId := -1 }

/-- A concrete input packet addressed to a tick already in the past. -/
def latePacket : InputPacket Int :=
  { tick := 0, inputId := 5, payload := 7 }

/-- Witness for C7: the concrete late packet is rescheduled to the current
tick and sits in the batch the next `tick()` call applies. -/
theorem late_input_liveness_witness :
    latePacket.tick < lateServer.currentTick ∧
    (lateServer.rescheduleTarget latePacket = lateServer.currentTick ∧
      (⟨lateServer.rescheduleTarget latePacket, latePacket.inputId, latePacket.payload⟩ :
        QueuedInput Int) ∈ (lateServer.onClientInput latePacket).inputsForTick) :=
  ⟨by decide,
   (late_input_liveness (fun a b => a + b) (fun a => a) lateServer latePacket).2.1 (by decide)⟩

end Multiplayer

namespace Multiplayer

/-- One client input submission over a lossless in-order channel: the
client predicts and emits its packet, which is delivered to the server at
once. -/
def stepInput {S I : Type} (applyInput : S → I → S)
    (cs : MClient S I × MServer S I) (i : I) : MClient S I × MServer S I :=
  ((cs.1.input applyInput i).1, cs.2.onClientInput (cs.1.input applyInput i).2)

/-- One server tick over a lossless in-order channel: the emitted state
packet is delivered to the client at once. -/
def stepTick {S I : Type} (applyInput : S → I → S) (simulate : S → S)
    (cs : MClient S I × MServer S I) : MClient S I × MServer S I :=
  (cs.1.onServerState applyInput (cs.2.tick applyInput simulate).2,
   (cs.2.tick applyInput simulate).1)

/-- Iterate `stepTick`. -/
def runTicks {S I : Type} (applyInput : S → I → S) (simulate : S → S) :
    Nat → MClient S I × MServer S I → MClient S I × MServer S I
  | 0, cs => cs
  | n + 1, cs => runTicks applyInput simulate n (stepTick applyInput simulate cs)

/-- The claim's experiment: client and server created from the same
initial state, N client input submissions each delivered to the server,
then N server ticks each delivered to the client, no further inputs. -/
def scenario {S I : Type} (applyInput : S → I → S) (simulate : S → S)
    (init : S) (inputs : List I) : MClient S I × MServer S I :=
  runTicks applyInput simulate inputs.length
    (inputs.foldl (stepInput applyInput) (MClient.init init, MServer.init init))

/-- Invariant of the input-submission phase: both peers still at tick 0,
every queued entry scheduled for tick 0, and the pending and queued input
ids coincide in order. -/
def Phase1Inv {S I : Type} (cs : MClient S I × MServer S I) : Prop :=
  cs.1.currentTick = 0 ∧ cs.2.currentTick = 0 ∧
  (∀ e ∈ cs.2.inputQueue, e.targetTick = 0) ∧
  cs.1.pendingInputs.map (fun q => q.inputId) = cs.2.inputQueue.map (fun e => e.inputId)

/-- Invariant of the tick phase: states agree, nothing pending, nothing
queued. -/
def SyncInv {S I : Type} (cs : MClient S I × MServer S I) : Prop :=
  cs.1.state = cs.2.state ∧ cs.1.pendingInputs = [] ∧ cs.2.inputQueue = []

lemma phase1_init {S I : Type} (init : S) :
    Phase1Inv ((MClient.init init : MClient S I), MServer.init init) :=
  ⟨rfl, rfl, fun e he => absurd he (List.not_mem_nil e), rfl⟩

lemma phase1_step {S I : Type} (applyInput : S → I → S)
    (cs : MClient S I × MServer S I) (i : I) (h : Phase1Inv cs) :
    Phase1Inv (stepInput applyInput cs i) := by
  obtain ⟨c, s⟩ := cs
  obtain ⟨h1, h2, h3, h4⟩ := h
  refine ⟨h1, h2, ?_, ?_⟩
  · intro e he
    rcases List.mem_append.mp he with hin | hin
    · exact h3 e hin
    · rw [List.mem_singleton] at hin
      subst hin
      show s.rescheduleTarget (c.input applyInput i).2 = 0
      unfold MServer.rescheduleTarget
      have hpt : (c.input applyInput i).2.tick = c.currentTick := rfl
      rw [hpt, h1, h2]
      simp
  · have h4b : c.pendingInputs.map (fun q => q.inputId) =
        s.inputQueue.map (fun e => e.inputId) := h4
    have e1 : (stepInput applyInput (c, s) i).1.pendingInputs =
        c.pendingInputs ++ [(c.input applyInput i).2] := rfl
    have e2 : (stepInput applyInput (c, s) i).2.inputQueue =
        s.inputQueue ++
          [⟨s.rescheduleTarget (c.input applyInput i).2,
            (c.input applyInput i).2.inputId, (c.input applyInput i).2.payload⟩] := rfl
    rw [e1, e2, List.map_append, List.map_append, h4b]
    rfl

lemma phase1_fold {S I : Type} (applyInput : S → I → S) (inputs : List I)
    (cs : MClient S I × MServer S I) (h : Phase1Inv cs) :
    Phase1Inv (inputs.foldl (stepInput applyInput) cs) := by
  induction inputs generalizing cs with
  | nil => exact h
  | cons i is ih =>
      rw [List.foldl_cons]
      exact ih _ (phase1_step applyInput cs i h)

lemma onServerState_all_acked {S I : Type} (applyInput : S → I → S) (c : MClient S I)
    (p : StatePacket S)
    (h : ∀ q ∈ c.pendingInputs, q.inputId ≤ p.lastProcessedInputId) :
    c.onServerState applyInput p =
      { state := p.state, currentTick := p.tick, pendingInputs := [],
        nextInputId := c.nextInputId } := by
  have hf : c.pendingInputs.filter (fun q => p.lastProcessedInputId < q.inputId) = [] := by
    rw [List.eq_nil_iff_forall_not_mem]
    intro q hq
    rw [List.mem_filter] at hq
    obtain ⟨hm, hp2⟩ := hq
    simp only [decide_eq_true_eq] at hp2
    exact absurd hp2 (not_lt.mpr (h q hm))
  simp only [MClient.onServerState, hf, List.foldl_nil]

lemma stepTick_sync {S I : Type} (applyInput : S → I → S) (simulate : S → S)
    (cs : MClient S I × MServer S I) (h : Phase1Inv cs) :
    SyncInv (stepTick applyInput simulate cs) := by
  obtain ⟨c, s⟩ := cs
  obtain ⟨h1, h2, h3, h4⟩ := h
  have happ : s.inputsForTick = s.inputQueue := by
    unfold MServer.inputsForTick
    apply List.filter_eq_self.mpr
    intro e he
    simp only [decide_eq_true_eq]
    rw [h2]
    exact h3 e he
  have hrest : s.inputQueue.filter (fun q => ¬ q.targetTick = s.currentTick) = [] := by
    rw [List.eq_nil_iff_forall_not_mem]
    intro e he
    rw [List.mem_filter] at he
    obtain ⟨hm, hp⟩ := he
    simp only [decide_eq_true_eq] at hp
    exact hp (by rw [h2]; exact h3 e hm)
  have hserver : MServer.tick applyInput simulate s =
      ({ state := simulate (s.inputQueue.foldl (fun st q => applyInput st q.payload) s.state)
         currentTick := s.currentTick + 1
         inputQueue := []
         lastProcessedInputId :=
           s.inputQueue.foldl (fun m q => max m q.inputId) s.lastProcessedInputId },
       { tick := s.currentTick + 1
         lastProcessedInputId :=
           s.inputQueue.foldl (fun m q => max m q.inputId) s.lastProcessedInputId
         state := simulate (s.inputQueue.foldl (fun st q => applyInput st q.payload) s.state) }) := by
    simp only [MServer.tick, happ, hrest]
  have hlast : ∀ q ∈ c.pendingInputs,
      q.inputId ≤ s.inputQueue.foldl (fun m e => max m e.inputId) s.lastProcessedInputId := by
    intro q hq
    have hid : q.inputId ∈ s.inputQueue.map (fun e => e.inputId) := by
      rw [← h4]
      exact List.mem_map_of_mem _ hq
    have hb := le_foldl_max (s.inputQueue.map (fun e => e.inputId))
      s.lastProcessedInputId q.inputId hid
    rwa [List.foldl_map] at hb
  unfold SyncInv stepTick
  rw [hserver]
  rw [onServerState_all_acked applyInput c _ (fun q hq => hlast q hq)]
  exact ⟨rfl, rfl, rfl⟩

lemma stepTick_preserves_sync {S I : Type} (applyInput : S → I → S) (simulate : S → S)
    (cs : MClient S I × MServer S I) (h : SyncInv cs) :
    SyncInv (stepTick applyInput simulate cs) := by
  obtain ⟨c, s⟩ := cs
  obtain ⟨h1, h2, h3⟩ := h
  have happ : s.inputsForTick = [] := by
    unfold MServer.inputsForTick
    rw [h3]
    rfl
  have hrest : s.inputQueue.filter (fun q => ¬ q.targetTick = s.currentTick) = [] := by
    rw [h3]
    rfl
  have hserver : MServer.tick applyInput simulate s =
      ({ state := simulate s.state
         currentTick := s.currentTick + 1
         inputQueue := []
         lastProcessedInputId := s.lastProcessedInputId },
       { tick := s.currentTick + 1
         lastProcessedInputId := s.lastProcessedInputId
         state := simulate s.state }) := by
    simp only [MServer.tick, happ, hrest, List.foldl_nil]
  unfold SyncInv stepTick
  rw [hserver]
  rw [onServerState_all_acked applyInput c _ (fun q hq => absurd hq (by rw [h2]; simp))]
  refine ⟨?_, rfl, rfl⟩
  show simulate s.state = simulate s.state
  rfl

lemma runTicks_sync {S I : Type} (applyInput : S → I → S) (simulate : S → S)
    (n : Nat) (cs : MClient S I × MServer S I) (h : SyncInv cs) :
    SyncInv (runTicks applyInput simulate n cs) := by
  induction n generalizing cs with
  | zero => exact h
  | succ m ih =>
      rw [runTicks]
      exact ih _ (stepTick_preserves_sync applyInput simulate cs h)

/-- C2: client and server protocol instances built over the same injected
`applyInput`/`simulate` operations and the same initial state, wired
through a lossless in-order channel, converge: after any N client input
submissions (each InputPacket delivered) followed by N server ticks (each
StatePacket delivered) with no further inputs, the client's predicted
state equals the server's authoritative state exactly and the client's
pending-input list is empty. -/
theorem reconciliation_convergence {S I : Type} (applyInput : S → I → S) (simulate : S → S)
    (init : S) (inputs : List I) :
    (scenario applyInput simulate init inputs).1.state =
      (scenario applyInput simulate init inputs).2.state ∧
    (scenario applyInput simulate init inputs).1.pendingInputs = [] := by
  have hp : Phase1Inv (inputs.foldl (stepInput applyInput)
      ((MClient.init init : MClient S I), MServer.init init)) :=
    phase1_fold applyInput inputs _ (phase1_init init)
  unfold scenario
  rcases hn : inputs.length with _ | m
  · have h0 : inputs = [] := List.length_eq_zero.mp hn
    subst h0
    exact ⟨rfl, rfl⟩
  · rw [runTicks]
    have hs := runTicks_sync applyInput simulate m _
      (stepTick_sync applyInput simulate _ hp)
    exact ⟨hs.1, hs.2.1⟩

end Multiplayer

namespace ServerLogic

/-- `ClientID` from serverLogic.ts. -/
abbrev ClientID := String

/-- `ServerStatus` from serverLogic.ts. -/
inductive ServerStatus where
  | WAITING_PLAYERS
  | COUNTDOWN
  | PLAYING
  | RESULTS_COUNTDOWN
deriving DecidableEq, Repr

/-- Key insertion for the `Map`/`Set` fields (membership view): adding a
present key leaves the key list unchanged, a new key is appended. -/
def addKey (l : List ClientID) (x : ClientID) : List ClientID :=
  if x ∈ l then l else l ++ [x]

/-- Key removal for the `Map`/`Set` fields. -/
def removeKey (l : List ClientID) (x : ClientID) : List ClientID :=
  l.filter (fun y => ¬ y = x)

/-- The membership state of the `ServerLogic` class: the key sets of
`clients` and `playerGames` and the `ready`/`players` sets, plus the
status. The values held by `clients` (names) and `playerGames` (game
instances) do not bear on the membership invariant and are not modelled. -/
structure ServerLogicState where
  clients : List ClientID
  ready : List ClientID
  players : List ClientID
  status : ServerStatus
  playerGames : List ClientID
deriving DecidableEq, Repr

/-- The freshly constructed `ServerLogic`. -/
def initialServer : ServerLogicState :=
  { clients := [], ready := [], players := [],
    status := ServerStatus.WAITING_PLAYERS, playerGames := [] }

/-- `handleJoin` (reached via `handleMessage` on a join message):
`clients.set(clientId, info)` plus outbound messages. -/
def handleJoin (id : ClientID) (s : ServerLogicState) : ServerLogicState :=
  { s with clients := addKey s.clients id }

/-- The private `gameOver`: status to RESULTS_COUNTDOWN and
`playerGames.clear()`. -/
def gameOver (s : ServerLogicState) : ServerLogicState :=
  { s with status := ServerStatus.RESULTS_COUNTDOWN, playerGames := [] }

/-- `handleDisconnect` from serverLogic.ts: if the client is a player,
drop it from `players` (ending the match when status is PLAYING), then
drop it from `clients` and `playerGames` and broadcast. The method never
touches the `ready` set. -/
def handleDisconnect (id : ClientID) (s : ServerLogicState) : ServerLogicState :=
  let s1 :=
    if id ∈ s.players then
      (if s.status = ServerStatus.PLAYING then
        gameOver { s with players := removeKey s.players id }
       else { s with players := removeKey s.players id })
    else s
  { s1 with clients := removeKey s1.clients id,
            playerGames := removeKey s1.playerGames id }

/-- `startGame(player1Id, player2Id)` from serverLogic.ts: `players`
cleared and repopulated with the two ids, both ids added to `ready`,
status set to PLAYING, and a game instance registered per player. -/
def startGame (p1 p2 : ClientID) (s : ServerLogicState) : ServerLogicState :=
  { s with players := addKey (addKey [] p1) p2
           ready := addKey (addKey s.ready p1) p2
           status := ServerStatus.PLAYING
           playerGames := addKey (addKey s.playerGames p1) p2 }

/-- `handleMessage` on an input message and `handleInputPacket` forward
into the player's game instance and `tick` advances the games; none of
them alters `clients`, `ready`, `players` or `status`, so on the
membership state they are the identity. -/
def handleInputPacket (_id : ClientID) (s : ServerLogicState) : ServerLogicState :=
  s

/-- `ServerLogic.tick`: advances the player games only; identity on the
membership state. -/
def tick (s : ServerLogicState) : ServerLogicState :=
  s

/-- The invariant claimed for `ServerLogic` (and asserted by the source's
own `checkRep`): `players ⊆ ready ⊆ clients`, at most `PLAYER_SLOTS = 2`
players, exactly 2 while PLAYING or COUNTDOWN. -/
def ServerInvariant (s : ServerLogicState) : Prop :=
  (∀ id ∈ s.players, id ∈ s.ready) ∧
  (∀ id ∈ s.ready, id ∈ s.clients) ∧
  s.players.length ≤ 2 ∧
  ((s.status = ServerStatus.PLAYING ∨ s.status = ServerStatus.COUNTDOWN) →
    s.players.length = 2)

instance (s : ServerLogicState) : Decidable (ServerInvariant s) := by
  unfold ServerInvariant
  infer_instance

/-- The state after: client a joins, client b joins, a game is started
between them, then client a disconnects mid-game. -/
def bugState : ServerLogicState :=
  handleDisconnect "a" (startGame "a" "b" (handleJoin "b" (handleJoin "a" initialServer)))

/-- C8, refuted on the code: after `join a; join b; startGame(a, b)` the
invariant holds (and the match is PLAYING), but `handleDisconnect(a)`
leaves `a` in `ready` while removing it from `clients` — the source never
deletes the departing id from the `ready` set — so `ready ⊆ clients`
fails and the source's own `checkRep` assertion (every ready id is a
client) would throw at the end of `handleDisconnect`. -/
theorem handleDisconnect_breaks_invariant :
    ServerInvariant (startGame "a" "b" (handleJoin "b" (handleJoin "a" initialServer))) ∧
    (startGame "a" "b" (handleJoin "b" (handleJoin "a" initialServer))).status =
      ServerStatus.PLAYING ∧
    "a" ∈ bugState.ready ∧
    "a" ∉ bugState.clients ∧
    ¬ ServerInvariant bugState := by
  decide

end ServerLogic

namespace TimeSync

/-- `process_TimeSyncResponse` from time_sync.ts: computes the round-trip
time between the recorded request send time and the reply receipt time
(the `performance.now()` reading, here the explicit `requester_end_time`
argument) and returns the one-way latency estimate `RTT / 2`. Clock
readings are exact rationals in this embedding. -/
def process_TimeSyncResponse (requester_start_time requester_end_time : ℚ) : ℚ :=
  let RTT := requester_end_time - requester_start_time
  let latency := RTT / 2
  latency

/-- The computation inside the server game module's
`handleTimeSyncResponse` (the variant that resolves a time offset):
`latencyMs` is the round-trip time measured from the recorded request
start to reply receipt, and `timeOffset` adjusts the client's reported
clock by the assumed-symmetric one-way delay `latencyMs / 2`. The two
`performance.now()` readings inside the handler are the explicit
arguments `now1` (ending the RTT measurement) and `now2` (the offset
reference point); within one synchronous handler both denote the reply
receipt instant. -/
def handleTimeSyncResponse_compute (startTime clientTimeMs now1 now2 : ℚ) : ℚ × ℚ :=
  let latencyMs := now1 - startTime
  let timeOffset := clientTimeMs - now2 + latencyMs / 2
  (latencyMs, timeOffset)

/-- C9: upon reply receipt at instant `now` (both clock reads of the
handler taken then), the requester computes the round-trip time
RTT = now − t0, the one-way latency estimate latency = RTT / 2 (the value
`process_TimeSyncResponse` returns), and the clock offset
offset = remoteTimestamp − now + latency. -/
theorem time_sync_formulas (t0 remote now : ℚ) :
    (handleTimeSyncResponse_compute t0 remote now now).1 = now - t0 ∧
    process_TimeSyncResponse t0 now = (now - t0) / 2 ∧
    (handleTimeSyncResponse_compute t0 remote now now).2 =
      remote - now + process_TimeSyncResponse t0 now :=
  ⟨rfl, rfl, rfl⟩

end TimeSync
